import Mathlib

/-!
Verification development for the vscode-generic-lsp-proxy repository.

The development shallowly embeds the two core components of the extension:

* the configuration resolver (src/configurationManager.ts), and
* the client supervisor (src/lspProxyManager.ts), of which the repository
  contains two revisions: the current one without automatic restart and an
  earlier one with a bounded auto-restart policy (definitions carrying the
  suffix V2 below).

JavaScript `Map` objects are modelled as association lists whose `set`
operation replaces the value in place (preserving insertion order, exactly
like `Map.prototype.set`), `Set` objects as duplicate-free lists in insertion
order, and asynchronous functions as explicit begin/finish steps so that the
event-loop interleavings of the source can be replayed as sequences of pure
state transformations.
-/

namespace LspProxy

/-! ### JavaScript Map / Set primitives -/

/-- Model of `Map.prototype.get`: first entry with the given key. -/
def mapGet {α : Type} : List (String × α) → String → Option α
  | [], _ => none
  | p :: rest, k => if p.1 == k then some p.2 else mapGet rest k

/-- Model of `Map.prototype.set`: replace the value in place if the key is
present (keeping insertion order), otherwise append a new entry. -/
def mapSet {α : Type} : List (String × α) → String → α → List (String × α)
  | [], k, v => [(k, v)]
  | p :: rest, k, v => if p.1 == k then (k, v) :: rest else p :: mapSet rest k v

/-- Model of `Map.prototype.delete`. -/
def mapDelete {α : Type} (m : List (String × α)) (k : String) : List (String × α) :=
  m.filter (fun p => !(p.1 == k))

/-- Model of mutating the value object stored under a key
(`m.get(k).field = v` in JavaScript). -/
def mapUpdate {α : Type} : List (String × α) → String → (α → α) → List (String × α)
  | [], _, _ => []
  | p :: rest, k, f =>
    if p.1 == k then (p.1, f p.2) :: mapUpdate rest k f else p :: mapUpdate rest k f

/-- Model of `Set.prototype.add` on a duplicate-free list. -/
def setAdd (l : List String) (x : String) : List String :=
  if l.contains x then l else l ++ [x]

theorem mapGet_set_self {α : Type} (m : List (String × α)) (k : String) (v : α) :
    mapGet (mapSet m k v) k = some v := by
  induction m with
  | nil => simp [mapGet, mapSet]
  | cons p rest ih =>
    by_cases h : p.1 = k
    · simp [mapGet, mapSet, h]
    · have hb : (p.1 == k) = false := beq_eq_false_iff_ne.mpr h
      simp [mapGet, mapSet, hb, ih]

theorem mapGet_set_ne {α : Type} (m : List (String × α)) (k k' : String) (v : α)
    (h : k' ≠ k) : mapGet (mapSet m k v) k' = mapGet m k' := by
  induction m with
  | nil => simp [mapGet, mapSet, beq_eq_false_iff_ne.mpr (Ne.symm h)]
  | cons p rest ih =>
    by_cases hpk : p.1 = k
    · subst hpk
      simp [mapGet, mapSet, beq_eq_false_iff_ne.mpr (Ne.symm h)]
    · have hb : (p.1 == k) = false := beq_eq_false_iff_ne.mpr hpk
      by_cases hpk' : p.1 = k'
      · simp [mapGet, mapSet, hb, hpk', h]
      · have hb' : (p.1 == k') = false := beq_eq_false_iff_ne.mpr hpk'
        simp [mapGet, mapSet, hb, hb', ih]

theorem mapGet_set_cases {α : Type} (m : List (String × α)) (k k' : String)
    (v c : α) (h : mapGet (mapSet m k v) k' = some c) :
    c = v ∨ mapGet m k' = some c := by
  by_cases hk : k' = k
  · subst hk
    rw [mapGet_set_self] at h
    exact Or.inl (Option.some_injective _ h).symm
  · rw [mapGet_set_ne m k k' v hk] at h
    exact Or.inr h

theorem isSome_mapGet_set {α : Type} (m : List (String × α)) (k k' : String)
    (v : α) (h : (mapGet m k').isSome = true) :
    (mapGet (mapSet m k v) k').isSome = true := by
  by_cases hk : k' = k
  · subst hk; rw [mapGet_set_self]; rfl
  · rw [mapGet_set_ne m k k' v hk]; exact h

theorem mapGet_delete_self {α : Type} (m : List (String × α)) (k : String) :
    mapGet (mapDelete m k) k = none := by
  induction m with
  | nil => simp [mapGet, mapDelete]
  | cons p rest ih =>
    by_cases h : p.1 = k
    · simpa [mapDelete, mapGet, h] using ih
    · have hb : (p.1 == k) = false := beq_eq_false_iff_ne.mpr h
      simpa [mapDelete, mapGet, hb] using ih

theorem fst_ne_of_mem_mapDelete {α : Type} {m : List (String × α)} {k : String}
    {p : String × α} (h : p ∈ mapDelete m k) : p.1 ≠ k := by
  have := List.of_mem_filter h
  intro hk
  rw [hk] at this
  simp at this

theorem mapGet_update_self {α : Type} (m : List (String × α)) (k : String)
    (f : α → α) : mapGet (mapUpdate m k f) k = (mapGet m k).map f := by
  induction m with
  | nil => simp [mapGet, mapUpdate]
  | cons p rest ih =>
    by_cases h : p.1 = k
    · simp [mapGet, mapUpdate, h]
    · have hb : (p.1 == k) = false := beq_eq_false_iff_ne.mpr h
      simp [mapGet, mapUpdate, hb, ih]

/-! ### Data model (src/configurationManager.ts) -/

/-- The `transport` field of a server configuration. -/
inductive Transport where
  | stdio
  | tcp
  | websocket
deriving DecidableEq

/-- `LSPServerConfig` from src/configurationManager.ts.  The opaque JSON
pass-through payloads (`initializationOptions`, `settings`) are modelled as
opaque strings; `env` as a key/value list. -/
structure LSPServerConfig where
  languageId : String
  command : String
  args : Option (List String) := none
  fileExtensions : List String
  filePatterns : Option (List String) := none
  workspacePattern : Option String := none
  initializationOptions : Option String := none
  settings : Option String := none
  env : Option (List (String × String)) := none
  transport : Option Transport := none
  tcpPort : Option Nat := none
  websocketUrl : Option String := none
  disabled : Option Bool := none
deriving DecidableEq

/-- JavaScript truthiness of the optional `disabled` flag
(`if (config.disabled)`). -/
def isDisabled (c : LSPServerConfig) : Bool :=
  c.disabled.getD false

/-- A text document as supplied by the editor: stable URI string, file-system
path (`document.fileName`) and editor-assigned language tag. -/
structure TextDocument where
  uriString : String
  fileName : String
  languageId : String
deriving DecidableEq

/-! ### Path helpers

`path.extname(document.fileName)` from Node: the extension (with leading dot)
of the final path component; empty for extension-less names and for dotfiles
whose only dot is the leading one. -/

/-- Characters of the final path component (after the last `/`). -/
def basenameChars (cs : List Char) : List Char :=
  cs.foldl (fun acc ch => if ch == '/' then [] else acc ++ [ch]) []

/-- Index of the last `.` in a character list, accumulator style. -/
def lastDotIndexAux : List Char → Nat → Option Nat → Option Nat
  | [], _, acc => acc
  | c :: rest, i, acc =>
    lastDotIndexAux rest (i + 1) (if c == '.' then some i else acc)

/-- Model of Node `path.extname` on POSIX paths. -/
def extname (p : String) : String :=
  let base := basenameChars p.data
  match lastDotIndexAux base 0 none with
  | none => ""
  | some 0 => ""
  | some i => String.mk (base.drop i)

/-- Model of JavaScript `String.prototype.startsWith` on character lists. -/
def charsPrefix : List Char → List Char → Bool
  | [], _ => true
  | _ :: _, [] => false
  | a :: as, b :: bs => a == b && charsPrefix as bs

/-- `fileName.startsWith(prefixString)` from the workspace-scope gate. -/
def strStartsWith (s pre : String) : Bool :=
  charsPrefix pre.data s.data

/-! ### ConfigurationManager -/

/-- Normalization of a declared file extension:
`ext.startsWith('.') ? ext : '.' + ext`. -/
def normalizeExt (ext : String) : String :=
  if strStartsWith ext "." then ext else "." ++ ext

/-- One iteration of `buildMaps`: skip disabled configs, register the config
under its `languageId` and under each normalized extension. -/
def buildMapsStep
    (acc : List (String × LSPServerConfig) × List (String × LSPServerConfig))
    (config : LSPServerConfig) :
    List (String × LSPServerConfig) × List (String × LSPServerConfig) :=
  if isDisabled config then acc
  else
    (config.fileExtensions.foldl
       (fun m ext => mapSet m (normalizeExt ext) config) acc.1,
     mapSet acc.2 config.languageId config)

/-- `buildMaps` folded over a load-ordered config list, starting from the
given (already cleared at every call site) maps. -/
def buildMapsFrom
    (acc : List (String × LSPServerConfig) × List (String × LSPServerConfig))
    (configs : List LSPServerConfig) :
    List (String × LSPServerConfig) × List (String × LSPServerConfig) :=
  configs.foldl buildMapsStep acc

/-- The pair (fileExtensionMap, languageIdMap) built by
`ConfigurationManager.buildMaps` from cleared maps. -/
def buildMaps (configs : List LSPServerConfig) :
    List (String × LSPServerConfig) × List (String × LSPServerConfig) :=
  buildMapsFrom ([], []) configs

/-- The state owned by `ConfigurationManager`: the load-ordered config list,
the two lookup maps, and the persisted `disabledLspConfigs` workspace-state
list. -/
structure ConfigState where
  configs : List LSPServerConfig
  fileExtensionMap : List (String × LSPServerConfig)
  languageIdMap : List (String × LSPServerConfig)
  workspaceStateDisabled : List String
deriving DecidableEq

/-- `getConfigByLanguageId`. -/
def getConfigByLanguageId (s : ConfigState) (languageId : String) :
    Option LSPServerConfig :=
  mapGet s.languageIdMap languageId

/-- The external collaborators consulted during pattern matching: the first
workspace folder and the glob matcher (`vscode.languages.match` over a
`RelativePattern`), which is outside this spec and therefore kept abstract. -/
structure ResolveEnv where
  firstWorkspaceFolder : Option String
  globMatch : String → String → TextDocument → Bool

/-- The base folder used for a config's `filePatterns`:
`cfg.workspacePattern || workspaceFolders[0]` (an empty string is falsy). -/
def patternBase (env : ResolveEnv) (c : LSPServerConfig) : Option String :=
  match c.workspacePattern with
  | some wp => if wp = "" then env.firstWorkspaceFolder else some wp
  | none => env.firstWorkspaceFolder

/-- Whether any of the config's `filePatterns` matches the document (the inner
loop of the pattern-match fallback). -/
def configPatternMatches (env : ResolveEnv) (doc : TextDocument)
    (c : LSPServerConfig) : Bool :=
  match c.filePatterns with
  | none => false
  | some pats =>
    pats.any (fun pat =>
      match patternBase env c with
      | none => false
      | some base => env.globMatch base pat doc)

/-- The candidate search of `getConfigForDocument`, before the
workspace-scope gate: extension map hit, then languageId map scan, then
pattern scan over all enabled configs. -/
def findCandidate (env : ResolveEnv) (s : ConfigState) (doc : TextDocument) :
    Option LSPServerConfig :=
  let ext := extname doc.fileName
  match mapGet s.fileExtensionMap ext with
  | some c => some c
  | none =>
    match s.languageIdMap.find? (fun p => doc.languageId == p.1) with
    | some p => some p.2
    | none =>
      s.configs.find? (fun c => !(isDisabled c) && configPatternMatches env doc c)

/-- `getConfigForDocument`: candidate search followed by the workspace-scope
gate (`if (config && config.workspacePattern)` — an empty `workspacePattern`
is falsy and skips the gate). -/
def getConfigForDocument (env : ResolveEnv) (s : ConfigState)
    (doc : TextDocument) : Option LSPServerConfig :=
  match findCandidate env s doc with
  | none => none
  | some config =>
    match config.workspacePattern with
    | some wp =>
      if wp = "" then some config
      else if strStartsWith doc.fileName wp then some config
      else none
    | none => some config

/-- `this.configs.find(...)` followed by `config.disabled = b`: flips the flag
on the first config with the given `languageId` only. -/
def setDisabledFirst : List LSPServerConfig → String → Option Bool →
    List LSPServerConfig
  | [], _, _ => []
  | c :: cs, id, b =>
    if c.languageId == id then { c with disabled := b } :: cs
    else c :: setDisabledFirst cs id b

/-- `indexOf` + `splice(idx, 1)`: remove the first occurrence. -/
def eraseFirst : List String → String → List String
  | [], _ => []
  | x :: xs, id => if x == id then xs else x :: eraseFirst xs id

/-- `markConfigAsDisabled`: flag the config, persist the languageId into the
`disabledLspConfigs` workspace state (if not already there), and rebuild both
lookup maps from cleared maps. -/
def markConfigAsDisabled (s : ConfigState) (languageId : String) : ConfigState :=
  match s.configs.find? (fun c => c.languageId == languageId) with
  | none => s
  | some _ =>
    let configs := setDisabledFirst s.configs languageId (some true)
    let ws :=
      if s.workspaceStateDisabled.contains languageId then s.workspaceStateDisabled
      else s.workspaceStateDisabled ++ [languageId]
    { configs := configs
      fileExtensionMap := (buildMaps configs).1
      languageIdMap := (buildMaps configs).2
      workspaceStateDisabled := ws }

/-- `enableConfig`: clear the flag, remove the languageId from the persisted
workspace state, and rebuild both lookup maps from cleared maps. -/
def enableConfig (s : ConfigState) (languageId : String) : ConfigState :=
  match s.configs.find? (fun c => c.languageId == languageId) with
  | none => s
  | some _ =>
    let configs := setDisabledFirst s.configs languageId (some false)
    let ws := eraseFirst s.workspaceStateDisabled languageId
    { configs := configs
      fileExtensionMap := (buildMaps configs).1
      languageIdMap := (buildMaps configs).2
      workspaceStateDisabled := ws }

/-- A disable/enable call, for reasoning about arbitrary call sequences. -/
inductive ConfigOp where
  | disable (languageId : String)
  | enable (languageId : String)

/-- Apply one disable/enable call. -/
def applyConfigOp (s : ConfigState) : ConfigOp → ConfigState
  | ConfigOp.disable id => markConfigAsDisabled s id
  | ConfigOp.enable id => enableConfig s id

/-- Apply a sequence of disable/enable calls. -/
def applyConfigOps (s : ConfigState) (ops : List ConfigOp) : ConfigState :=
  ops.foldl applyConfigOp s

/-! ### Client supervisor, current revision (src/lspProxyManager.ts)

`startClient` is an async method: everything up to `await client.start()` runs
synchronously in one event-loop turn (`startClientBegin`), and the code after
the await runs later (`startClientFinishSuccess` when the start resolved,
`startClientFinishFailure` for the catch block).  The underlying
`LanguageClient` from vscode-languageclient is opaque; only the behaviour of
`needsStop()`/`stop()` and an identity for the constructed object are kept. -/

/-- Behaviour of the underlying client's `stop()` operation. -/
inductive StopBehavior where
  | succeeds
  | fails (msg : String)
deriving DecidableEq

/-- Opaque model of a constructed `LanguageClient`. -/
structure LanguageClient where
  clientId : Nat
  needsStop : Bool
  stopBehavior : StopBehavior
deriving DecidableEq

/-- The `try { if (needsStop()) await stop() }` body, as the exception channel
of the async call. -/
def clientStopAttempt (c : LanguageClient) : Except String Unit :=
  if c.needsStop then
    match c.stopBehavior with
    | StopBehavior.succeeds => Except.ok ()
    | StopBehavior.fails m => Except.error m
  else Except.ok ()

/-- The four statuses of a `ClientInfo` record. -/
inductive ClientStatus where
  | starting
  | running
  | stopped
  | error
deriving DecidableEq

/-- `ClientInfo` of the current revision (no restartCount field). -/
structure ClientInfo where
  client : LanguageClient
  config : LSPServerConfig
  status : ClientStatus
  documentCount : Nat
  lastError : Option String := none
deriving DecidableEq

/-- `LspProxyManager` state of the current revision, plus instrumentation
counters: how many times `startClient` was entered and how many
`serversChanged` events were emitted. -/
structure ManagerState where
  clients : List (String × ClientInfo) := []
  documentTracking : List (String × List String) := []
  startInvocations : Nat := 0
  serversChangedEvents : Nat := 0
deriving DecidableEq

/-- The supervisor state at activation time. -/
def emptyManagerState : ManagerState := {}

/-- `trackDocument`: add the URI to the per-languageId document set (creating
it on demand) and refresh the record's `documentCount` from the set size. -/
def trackDocument (s : ManagerState) (languageId : String) (uri : String) :
    ManagerState :=
  let documentSet := (mapGet s.documentTracking languageId).getD []
  let documentSet := setAdd documentSet uri
  { s with
    documentTracking := mapSet s.documentTracking languageId documentSet
    clients := mapUpdate s.clients languageId
      (fun info => { info with documentCount := documentSet.length }) }

/-- The synchronous prefix of `startClient`, up to and including
`this.clients.set(...)` and the state-change subscription: reads the prior
record's `documentCount` (`existingInfo?.documentCount || 0`), constructs the
client, and inserts a fresh record with status `starting` before the start is
awaited. -/
def startClientBegin (s : ManagerState) (config : LSPServerConfig)
    (newClient : LanguageClient) : ManagerState :=
  let preservedDocumentCount :=
    ((mapGet s.clients config.languageId).map (fun i => i.documentCount)).getD 0
  let clientInfo : ClientInfo :=
    { client := newClient
      config := config
      status := ClientStatus.starting
      documentCount := preservedDocumentCount }
  { s with
    clients := mapSet s.clients config.languageId clientInfo
    startInvocations := s.startInvocations + 1 }

/-- The continuation of `startClient` after `await client.start()` resolves:
mutate the record inserted by this invocation to `running` (the mutation is
visible in the map only while that record is still the stored one, hence the
clientId guard), track the optional document, emit `serversChanged`. -/
def startClientFinishSuccess (s : ManagerState) (languageId : String)
    (clientId : Nat) (document : Option TextDocument) : ManagerState :=
  let s1 :=
    { s with
      clients := mapUpdate s.clients languageId
        (fun info =>
          if info.client.clientId == clientId then
            { info with status := ClientStatus.running }
          else info) }
  let s2 :=
    match document with
    | some doc => trackDocument s1 languageId doc.uriString
    | none => s1
  { s2 with serversChangedEvents := s2.serversChangedEvents + 1 }

/-- The catch block of `startClient` in the current revision: set status
`error` and record `lastError` if a record exists; no restart is scheduled
here (a comment defers to the state-change handler). -/
def startClientFinishFailure (s : ManagerState) (languageId : String)
    (err : String) : ManagerState :=
  match mapGet s.clients languageId with
  | none => s
  | some _ =>
    { s with
      clients := mapUpdate s.clients languageId
        (fun info =>
          { info with status := ClientStatus.error, lastError := some err }) }

/-- `ensureClientForConfig`: a record with status `running` or `starting`
absorbs the document without a new start; otherwise `startClient` begins (its
asynchronous completion is a separate step). -/
def ensureClientForConfig (s : ManagerState) (config : LSPServerConfig)
    (doc : TextDocument) (newClient : LanguageClient) : ManagerState :=
  match mapGet s.clients config.languageId with
  | some existingClient =>
    if existingClient.status = ClientStatus.running then
      trackDocument s config.languageId doc.uriString
    else if existingClient.status = ClientStatus.starting then
      trackDocument s config.languageId doc.uriString
    else startClientBegin s config newClient
  | none => startClientBegin s config newClient

/-- `stopClient`: no-op without a record; otherwise attempt the underlying
stop (errors are caught and logged) and unconditionally remove both the
record and the document set, then emit `serversChanged`. -/
def stopClient (s : ManagerState) (languageId : String) : ManagerState :=
  match mapGet s.clients languageId with
  | none => s
  | some _ =>
    { s with
      clients := mapDelete s.clients languageId
      documentTracking := mapDelete s.documentTracking languageId
      serversChangedEvents := s.serversChangedEvents + 1 }

/-- `stopClient` with its exception channel made explicit: the underlying
stop attempt is wrapped in try/catch, so both outcomes continue into the same
removal code and the async function never rejects. -/
def stopClientChecked (s : ManagerState) (languageId : String) :
    Except String ManagerState :=
  match mapGet s.clients languageId with
  | none => Except.ok s
  | some info =>
    let afterStop : ManagerState :=
      { s with
        clients := mapDelete s.clients languageId
        documentTracking := mapDelete s.documentTracking languageId
        serversChangedEvents := s.serversChangedEvents + 1 }
    match clientStopAttempt info.client with
    | Except.ok _ => Except.ok afterStop
    | Except.error _e => Except.ok afterStop

/-- One row of the `getActiveServers` snapshot. -/
structure ActiveServerEntry where
  languageId : String
  command : String
  status : ClientStatus
  documentCount : Nat
deriving DecidableEq

/-- `getActiveServers` (the `listActive()` snapshot). -/
def getActiveServers (s : ManagerState) : List ActiveServerEntry :=
  s.clients.map (fun p =>
    { languageId := p.1
      command := p.2.config.command
      status := p.2.status
      documentCount := p.2.documentCount })

/-- `restartClient`: stop, then look the identity up in the resolver and
start fresh only if a config is still resolvable (the started client's
asynchronous completion is again a separate step). -/
def restartClient (cs : ConfigState) (s : ManagerState) (languageId : String)
    (freshClient : LanguageClient) : ManagerState :=
  let s1 := stopClient s languageId
  match getConfigByLanguageId cs languageId with
  | some config => startClientBegin s1 config freshClient
  | none => s1

/-! ### Client supervisor, earlier auto-restart revision

The repository also carries the earlier `LspProxyManager` revision with the
bounded auto-restart policy (`restartCount`, `restartTimers`,
`scheduleRestart`).  Its definitions carry the suffix V2.  Timers are
modelled by consecutive numeric ids in a map keyed by languageId;
instrumentation counters record which code path invoked `scheduleRestart`,
how many timers were actually set, and how often the
"Max restart attempts reached" branch was taken. -/

/-- `ClientInfo` of the auto-restart revision (`restartCount` present;
`documentCount` is initialized to 0 on every start). -/
structure ClientInfoV2 where
  client : LanguageClient
  config : LSPServerConfig
  status : ClientStatus
  documentCount : Nat
  restartCount : Nat
  lastError : Option String := none
deriving DecidableEq

/-- `LspProxyManager` state of the auto-restart revision.  `autoRestart` is
the `genericLspProxy.autoRestart` workspace setting (default true). -/
structure ManagerStateV2 where
  clients : List (String × ClientInfoV2) := []
  documentTracking : List (String × List String) := []
  restartTimers : List (String × Nat) := []
  nextTimerId : Nat := 0
  autoRestart : Bool := true
  serversChangedEvents : Nat := 0
  schedFromCatch : Nat := 0
  schedFromStateChange : Nat := 0
  timersScheduledTotal : Nat := 0
  maxRestartLogs : Nat := 0
deriving DecidableEq

/-- The auto-restart supervisor state at activation time. -/
def emptyManagerStateV2 : ManagerStateV2 := {}

/-- `cancelRestart`: clear and forget any pending timer for the identity. -/
def cancelRestartV2 (s : ManagerStateV2) (languageId : String) : ManagerStateV2 :=
  { s with restartTimers := mapDelete s.restartTimers languageId }

/-- `scheduleRestart`: honour the `autoRestart` setting; log and give up when
no record exists or `restartCount >= 3`; otherwise cancel any pending timer
and set a fresh one. -/
def scheduleRestartV2 (s : ManagerStateV2) (languageId : String) : ManagerStateV2 :=
  if s.autoRestart = false then s
  else
    match mapGet s.clients languageId with
    | none => { s with maxRestartLogs := s.maxRestartLogs + 1 }
    | some clientInfo =>
      if 3 ≤ clientInfo.restartCount then
        { s with maxRestartLogs := s.maxRestartLogs + 1 }
      else
        let s1 := cancelRestartV2 s languageId
        { s1 with
          restartTimers := mapSet s1.restartTimers languageId s1.nextTimerId
          nextTimerId := s1.nextTimerId + 1
          timersScheduledTotal := s1.timersScheduledTotal + 1 }

/-- The synchronous prefix of the V2 `startClient`, up to
`this.clients.set(...)`: the fresh record resets `documentCount` and
`restartCount` to 0. -/
def startClientBeginV2 (s : ManagerStateV2) (config : LSPServerConfig)
    (newClient : LanguageClient) : ManagerStateV2 :=
  let clientInfo : ClientInfoV2 :=
    { client := newClient
      config := config
      status := ClientStatus.starting
      documentCount := 0
      restartCount := 0 }
  { s with clients := mapSet s.clients config.languageId clientInfo }

/-- The catch block of the V2 `startClient`: set status `error`, record
`lastError`, and call `scheduleRestart` directly from the catch path. -/
def startClientFinishFailureV2 (s : ManagerStateV2) (languageId : String)
    (err : String) : ManagerStateV2 :=
  match mapGet s.clients languageId with
  | none => s
  | some _ =>
    let s1 :=
      { s with
        clients := mapUpdate s.clients languageId
          (fun info =>
            { info with status := ClientStatus.error, lastError := some err }) }
    let s2 := scheduleRestartV2 s1 languageId
    { s2 with schedFromCatch := s2.schedFromCatch + 1 }

/-- `handleClientStateChange` of the V2 revision: state 2 sets `running`,
resets `restartCount` and cancels any pending timer; state 1 sets `starting`;
state 3 sets `stopped` and calls `scheduleRestart` from the state-change
path; then `serversChanged` is emitted.  Without a record the event is a
no-op. -/
def handleClientStateChangeV2 (s : ManagerStateV2) (languageId : String)
    (newState : Nat) : ManagerStateV2 :=
  match mapGet s.clients languageId with
  | none => s
  | some _ =>
    let s1 :=
      if newState = 2 then
        cancelRestartV2
          { s with
            clients := mapUpdate s.clients languageId
              (fun info =>
                { info with status := ClientStatus.running, restartCount := 0 }) }
          languageId
      else if newState = 1 then
        { s with
          clients := mapUpdate s.clients languageId
            (fun info => { info with status := ClientStatus.starting }) }
      else if newState = 3 then
        let s2 :=
          { s with
            clients := mapUpdate s.clients languageId
              (fun info => { info with status := ClientStatus.stopped }) }
        let s3 := scheduleRestartV2 s2 languageId
        { s3 with schedFromStateChange := s3.schedFromStateChange + 1 }
      else s
    { s1 with serversChangedEvents := s1.serversChangedEvents + 1 }

/-- The synchronous body of the restart timer callback, before it re-invokes
`startClient`: increment the current record's `restartCount`. -/
def timerCallbackTickV2 (s : ManagerStateV2) (languageId : String) : ManagerStateV2 :=
  match mapGet s.clients languageId with
  | none => s
  | some _ =>
    { s with
      clients := mapUpdate s.clients languageId
        (fun info => { info with restartCount := info.restartCount + 1 }) }

/-! ### Transport Builder (`createServerOptions`, identical in both revisions)

The returned `ServerOptions` value is either a process-spawn descriptor
(command, args, merged env, shell flag, `TransportKind.stdio`) or the deferred
socket connector closure that resolves with a reader/writer stream pair on
connect and rejects on error.  The code only ever constructs the connector
for the tcp transport. -/

/-- The connection target of a deferred socket connector. -/
inductive StreamTarget where
  | tcp (port : Nat)
deriving DecidableEq

/-- Shape of the `ServerOptions` value built by `createServerOptions`. -/
inductive ServerOptionsModel where
  | executable (command : String) (args : List String)
      (env : List (String × String)) (shell : Bool)
  | streamConnector (target : StreamTarget)
deriving DecidableEq

/-- `{ ...process.env, ...config.env }`: config entries win on collision. -/
def envMerge (base overlay : List (String × String)) : List (String × String) :=
  overlay.foldl (fun m p => mapSet m p.1 p.2) base

/-- `config.env ? { ...process.env, ...config.env } : process.env`. -/
def resolvedEnv (processEnv : List (String × String)) (config : LSPServerConfig) :
    List (String × String) :=
  match config.env with
  | some e => envMerge processEnv e
  | none => processEnv

/-- JavaScript truthiness of `config.tcpPort` (port 0 is falsy). -/
def tcpPortTruthy : Option Nat → Bool
  | some p => p != 0
  | none => false

/-- The guard `config.transport === 'tcp' && config.tcpPort`. -/
def isTcpWithPort (config : LSPServerConfig) : Bool :=
  (match config.transport with
   | some Transport.tcp => true
   | _ => false) && tcpPortTruthy config.tcpPort

/-- `createServerOptions`: a tcp config with a truthy port yields the deferred
socket connector; every other config — including `transport: 'websocket'` —
falls through to the stdio process-spawn descriptor with
`shell: process.platform === 'win32'`. -/
def createServerOptions (processEnv : List (String × String)) (isWin32 : Bool)
    (config : LSPServerConfig) : ServerOptionsModel :=
  if isTcpWithPort config then
    ServerOptionsModel.streamConnector (StreamTarget.tcp (config.tcpPort.getD 0))
  else
    ServerOptionsModel.executable config.command (config.args.getD [])
      (resolvedEnv processEnv config) isWin32

/-! ## Claims -/

/-- A websocket configuration as the init wizard produces it. -/
def wsExampleConfig : LSPServerConfig :=
  { languageId := "mylang"
    command := "mylang-lsp"
    fileExtensions := [".ml2"]
    transport := some Transport.websocket
    websocketUrl := some "ws://localhost:8080/lsp" }

/-- C5: the spec (and the repository's own README, configuration schema and
init wizard) promise that a `websocket` transport config yields a
socket-oriented streaming connection descriptor to `websocketUrl`; the code's
`createServerOptions` only tests for the tcp transport, so every websocket
config falls through to the stdio process-spawn descriptor.  The claim fails
on the code: any config with `transport = websocket` is mapped to the
`executable` (stdio spawn) descriptor, never to a stream connector. -/
theorem claim_websocket_falls_back_stdio (processEnv : List (String × String))
    (isWin32 : Bool) (config : LSPServerConfig)
    (h : config.transport = some Transport.websocket) :
    createServerOptions processEnv isWin32 config =
      ServerOptionsModel.executable config.command (config.args.getD [])
        (resolvedEnv processEnv config) isWin32 := by
  have hguard : isTcpWithPort config = false := by
    simp [isTcpWithPort, h]
  simp [createServerOptions, hguard]

/-- Witness for C5: evaluating `createServerOptions` at the concrete
websocket example config produces a stdio spawn descriptor for the configured
command rather than any socket connector. -/
theorem claim_websocket_falls_back_stdio_witness :
    wsExampleConfig.transport = some Transport.websocket ∧
      createServerOptions [] false wsExampleConfig =
        ServerOptionsModel.executable "mylang-lsp" [] [] false :=
  ⟨rfl, claim_websocket_falls_back_stdio [] false wsExampleConfig rfl⟩

/-- C1: two `ensure` calls for the same config while the first start is still
pending perform exactly one start: the first call inserts the record with
status `starting` synchronously before the start is awaited, the second call
only tracks its document, and once the start resolves the record is `running`
with `documentCount = 2`. -/
theorem claim_ensure_single_start (config : LSPServerConfig)
    (c1 c2 : LanguageClient) (d1 d2 : TextDocument)
    (h : d1.uriString ≠ d2.uriString) :
    ((mapGet (ensureClientForConfig emptyManagerState config d1 c1).clients
        config.languageId).map (fun i => i.status) = some ClientStatus.starting)
    ∧ (ensureClientForConfig (ensureClientForConfig emptyManagerState config d1 c1)
        config d2 c2).startInvocations = 1
    ∧ (startClientFinishSuccess
        (ensureClientForConfig (ensureClientForConfig emptyManagerState config d1 c1)
          config d2 c2)
        config.languageId c1.clientId (some d1)).startInvocations = 1
    ∧ ((mapGet (startClientFinishSuccess
        (ensureClientForConfig (ensureClientForConfig emptyManagerState config d1 c1)
          config d2 c2)
        config.languageId c1.clientId (some d1)).clients
        config.languageId).map (fun i => i.status) = some ClientStatus.running)
    ∧ ((mapGet (startClientFinishSuccess
        (ensureClientForConfig (ensureClientForConfig emptyManagerState config d1 c1)
          config d2 c2)
        config.languageId c1.clientId (some d1)).clients
        config.languageId).map (fun i => i.documentCount) = some 2) := by
  have hb : (d1.uriString == d2.uriString) = false := beq_eq_false_iff_ne.mpr h
  refine ⟨?_, ?_, ?_, ?_, ?_⟩ <;>
    simp [ensureClientForConfig, emptyManagerState, startClientBegin,
      startClientFinishSuccess, trackDocument, setAdd, mapGet, mapSet, mapUpdate,
      List.contains, List.elem, hb, h]

/-- A plain stdio example config used by concrete witnesses. -/
def exampleConfig : LSPServerConfig :=
  { languageId := "python"
    command := "pylsp"
    fileExtensions := [".py", ".pyw"] }

/-- An example underlying client object. -/
def exampleClient : LanguageClient :=
  { clientId := 0, needsStop := true, stopBehavior := StopBehavior.succeeds }

/-- First example document. -/
def exampleDoc1 : TextDocument :=
  { uriString := "file:///ws/a.py", fileName := "/ws/a.py", languageId := "python" }

/-- Second example document. -/
def exampleDoc2 : TextDocument :=
  { uriString := "file:///ws/b.py", fileName := "/ws/b.py", languageId := "python" }

/-- Witness for C1 at a concrete config, client and document pair. -/
theorem claim_ensure_single_start_witness :
    ((mapGet (ensureClientForConfig emptyManagerState exampleConfig exampleDoc1
        exampleClient).clients
        exampleConfig.languageId).map (fun i => i.status) = some ClientStatus.starting)
    ∧ (ensureClientForConfig
        (ensureClientForConfig emptyManagerState exampleConfig exampleDoc1 exampleClient)
        exampleConfig exampleDoc2 exampleClient).startInvocations = 1
    ∧ (startClientFinishSuccess
        (ensureClientForConfig
          (ensureClientForConfig emptyManagerState exampleConfig exampleDoc1 exampleClient)
          exampleConfig exampleDoc2 exampleClient)
        exampleConfig.languageId exampleClient.clientId (some exampleDoc1)).startInvocations = 1
    ∧ ((mapGet (startClientFinishSuccess
        (ensureClientForConfig
          (ensureClientForConfig emptyManagerState exampleConfig exampleDoc1 exampleClient)
          exampleConfig exampleDoc2 exampleClient)
        exampleConfig.languageId exampleClient.clientId (some exampleDoc1)).clients
        exampleConfig.languageId).map (fun i => i.status) = some ClientStatus.running)
    ∧ ((mapGet (startClientFinishSuccess
        (ensureClientForConfig
          (ensureClientForConfig emptyManagerState exampleConfig exampleDoc1 exampleClient)
          exampleConfig exampleDoc2 exampleClient)
        exampleConfig.languageId exampleClient.clientId (some exampleDoc1)).clients
        exampleConfig.languageId).map (fun i => i.documentCount) = some 2) :=
  claim_ensure_single_start exampleConfig exampleClient exampleClient
    exampleDoc1 exampleDoc2 (by decide)

/-- C3: for a tracked languageId, `stopClient` never rejects (the underlying
stop error is caught), removes both the connection record and the document
set unconditionally, and a subsequent `getActiveServers` snapshot never
contains that languageId. -/
theorem claim_stop_always_removes (s : ManagerState) (languageId : String)
    (info : ClientInfo) (h : mapGet s.clients languageId = some info) :
    stopClientChecked s languageId = Except.ok (stopClient s languageId)
    ∧ mapGet (stopClient s languageId).clients languageId = none
    ∧ mapGet (stopClient s languageId).documentTracking languageId = none
    ∧ ∀ entry ∈ getActiveServers (stopClient s languageId),
        entry.languageId ≠ languageId := by
  refine ⟨?_, ?_, ?_, ?_⟩
  · simp only [stopClientChecked, stopClient, h]
    cases clientStopAttempt info.client <;> rfl
  · simp [stopClient, h, mapGet_delete_self]
  · simp [stopClient, h, mapGet_delete_self]
  · intro entry hentry
    simp only [stopClient, h, getActiveServers] at hentry
    obtain ⟨p, hp, rfl⟩ := List.mem_map.mp hentry
    exact fst_ne_of_mem_mapDelete hp

/-- A supervisor state holding a running client whose underlying `stop()`
throws. -/
def exampleFailingStopState : ManagerState :=
  { clients :=
      [("python",
        { client := { clientId := 5, needsStop := true,
                      stopBehavior := StopBehavior.fails "boom" }
          config := exampleConfig
          status := ClientStatus.running
          documentCount := 1 })]
    documentTracking := [("python", ["file:///ws/a.py"])] }

/-- Witness for C3: stopping the example client whose `stop()` throws still
returns normally and removes the record and the document set. -/
theorem claim_stop_always_removes_witness :
    stopClientChecked exampleFailingStopState "python" =
        Except.ok (stopClient exampleFailingStopState "python")
    ∧ mapGet (stopClient exampleFailingStopState "python").clients "python" = none
    ∧ mapGet (stopClient exampleFailingStopState "python").documentTracking
        "python" = none :=
  have h := claim_stop_always_removes exampleFailingStopState "python"
    { client := { clientId := 5, needsStop := true,
                  stopBehavior := StopBehavior.fails "boom" }
      config := exampleConfig
      status := ClientStatus.running
      documentCount := 1 } rfl
  ⟨h.1, h.2.1, h.2.2.1⟩

/-- C9: the record inserted by `startClient` carries over the prior record's
`documentCount` (`existingInfo?.documentCount || 0`, hence 0 when no prior
record exists) while `status` and `lastError` are freshly initialized to
`starting` and absent. -/
theorem claim_restart_preserves_document_count (s : ManagerState)
    (config : LSPServerConfig) (newClient : LanguageClient) :
    mapGet (startClientBegin s config newClient).clients config.languageId =
      some { client := newClient
             config := config
             status := ClientStatus.starting
             documentCount :=
               ((mapGet s.clients config.languageId).map
                 (fun i => i.documentCount)).getD 0
             lastError := none } := by
  simp [startClientBegin, mapGet_set_self]

/-- A supervisor state with a crashed record that tracked 7 documents and
carries a stale error message. -/
def exampleCrashedState : ManagerState :=
  { clients :=
      [("python",
        { client := exampleClient
          config := exampleConfig
          status := ClientStatus.error
          documentCount := 7
          lastError := some "spawn pylsp ENOENT" })] }

/-- Witness for C9: restarting over the crashed example record keeps
`documentCount = 7` and resets `status`/`lastError`. -/
theorem claim_restart_preserves_document_count_witness :
    mapGet (startClientBegin exampleCrashedState exampleConfig
        { clientId := 1, needsStop := false,
          stopBehavior := StopBehavior.succeeds }).clients "python" =
      some { client := { clientId := 1, needsStop := false,
                         stopBehavior := StopBehavior.succeeds }
             config := exampleConfig
             status := ClientStatus.starting
             documentCount := 7
             lastError := none } :=
  claim_restart_preserves_document_count exampleCrashedState exampleConfig
    { clientId := 1, needsStop := false, stopBehavior := StopBehavior.succeeds }

/-- C2: whenever the candidate search finds a config that carries a
`workspacePattern`, resolution returns that config exactly when the
document's file path starts with the pattern prefix, and `undefined`
otherwise. -/
theorem claim_workspace_gate (env : ResolveEnv) (s : ConfigState)
    (doc : TextDocument) (c : LSPServerConfig) (wp : String)
    (hc : findCandidate env s doc = some c)
    (hwp : c.workspacePattern = some wp) :
    getConfigForDocument env s doc =
      (if strStartsWith doc.fileName wp then some c else none) := by
  unfold getConfigForDocument
  rw [hc]
  dsimp only
  rw [hwp]
  by_cases he : wp = ""
  · subst he
    have hs : strStartsWith doc.fileName "" = true := rfl
    simp [hs]
  · simp [he]

/-- The scenario config from the spec: a Java server scoped to workspace
folder `/ws/proj-a`. -/
def javaConfig : LSPServerConfig :=
  { languageId := "java"
    command := "jdtls"
    fileExtensions := [".java"]
    workspacePattern := some "/ws/proj-a" }

/-- Resolver state after loading only `javaConfig`. -/
def javaState : ConfigState :=
  { configs := [javaConfig]
    fileExtensionMap := (buildMaps [javaConfig]).1
    languageIdMap := (buildMaps [javaConfig]).2
    workspaceStateDisabled := [] }

/-- An environment with no workspace folder and a glob matcher that never
matches (irrelevant to the extension-hit scenarios below). -/
def resolveEnvNone : ResolveEnv :=
  { firstWorkspaceFolder := none, globMatch := fun _ _ _ => false }

/-- The scenario document inside `/ws/proj-a`. -/
def javaDocA : TextDocument :=
  { uriString := "file:///ws/proj-a/src/Main.java"
    fileName := "/ws/proj-a/src/Main.java"
    languageId := "java" }

/-- The same file name under `/ws/proj-b`. -/
def javaDocB : TextDocument :=
  { uriString := "file:///ws/proj-b/src/Main.java"
    fileName := "/ws/proj-b/src/Main.java"
    languageId := "java" }

/-- Witness for C2, the spec's scenario: `/ws/proj-a/src/Main.java` resolves
to the scoped config and `/ws/proj-b/src/Main.java` resolves to none. -/
theorem claim_workspace_gate_witness :
    getConfigForDocument resolveEnvNone javaState javaDocA = some javaConfig
    ∧ getConfigForDocument resolveEnvNone javaState javaDocB = none :=
  ⟨claim_workspace_gate resolveEnvNone javaState javaDocA javaConfig
      "/ws/proj-a" rfl rfl,
   claim_workspace_gate resolveEnvNone javaState javaDocB javaConfig
      "/ws/proj-a" rfl rfl⟩

/-- Inserting all of a config's normalized extensions (the inner loop of
`buildMaps`) maps every such key to that config, and leaves other bindings to
the same value intact. -/
theorem mapGet_extFold (exts : List String) (c : LSPServerConfig)
    (m : List (String × LSPServerConfig)) (k : String)
    (h : mapGet m k = some c ∨ ∃ e ∈ exts, normalizeExt e = k) :
    mapGet (exts.foldl (fun m ext => mapSet m (normalizeExt ext) c) m) k = some c := by
  induction exts generalizing m with
  | nil =>
    simp only [List.foldl_nil]
    rcases h with hl | ⟨e, he, _⟩
    · exact hl
    · exact absurd he (List.not_mem_nil e)
  | cons e rest ih =>
    simp only [List.foldl_cons]
    by_cases hk : k = normalizeExt e
    · apply ih
      left
      rw [hk]
      exact mapGet_set_self m (normalizeExt e) c
    · apply ih
      rcases h with hl | ⟨e', he', heq⟩
      · left
        rw [mapGet_set_ne m (normalizeExt e) k c hk]
        exact hl
      · rcases List.mem_cons.mp he' with rfl | hmem
        · exact absurd heq.symm hk
        · right
          exact ⟨e', hmem, heq⟩

/-- The example from the spec: a mixed-dot extension list. -/
def pyMixedConfig : LSPServerConfig :=
  { languageId := "python"
    command := "pylsp"
    fileExtensions := ["py", ".pyw"] }

/-- First of two enabled configs sharing extension `.txt`. -/
def txtConfigA : LSPServerConfig :=
  { languageId := "alang", command := "a-lsp", fileExtensions := [".txt"] }

/-- Second (later-loaded) config sharing extension `.txt`. -/
def txtConfigB : LSPServerConfig :=
  { languageId := "blang", command := "b-lsp", fileExtensions := [".txt"] }

/-- Resolver state after loading `txtConfigA` then `txtConfigB`. -/
def txtState : ConfigState :=
  { configs := [txtConfigA, txtConfigB]
    fileExtensionMap := (buildMaps [txtConfigA, txtConfigB]).1
    languageIdMap := (buildMaps [txtConfigA, txtConfigB]).2
    workspaceStateDisabled := [] }

/-- A plain-text document. -/
def txtDoc : TextDocument :=
  { uriString := "file:///ws/notes.txt"
    fileName := "/ws/notes.txt"
    languageId := "plaintext" }

/-- C6: the extension lookup map is built over enabled configs in load order
with every declared extension normalized to a leading dot, and a later-loaded
enabled config overwrites any earlier binding of a shared extension key
(last-write-wins); concretely, `['py', '.pyw']` normalizes to keys
`{'.py', '.pyw'}`, and a `.txt` document resolves to the later-loaded of two
configs sharing `.txt`. -/
theorem claim_extension_map_last_write_wins (cfgs : List LSPServerConfig)
    (c : LSPServerConfig) (hdis : isDisabled c = false)
    (e : String) (he : e ∈ c.fileExtensions) :
    mapGet (buildMaps (cfgs ++ [c])).1 (normalizeExt e) = some c
    ∧ (buildMaps [pyMixedConfig]).1 =
        [(".py", pyMixedConfig), (".pyw", pyMixedConfig)]
    ∧ getConfigForDocument resolveEnvNone txtState txtDoc = some txtConfigB := by
  refine ⟨?_, rfl, rfl⟩
  unfold buildMaps buildMapsFrom
  rw [List.foldl_append]
  simp only [List.foldl_cons, List.foldl_nil]
  unfold buildMapsStep
  rw [hdis]
  simp only [Bool.false_eq_true, if_false]
  exact mapGet_extFold c.fileExtensions c _ (normalizeExt e)
    (Or.inr ⟨e, he, rfl⟩)

/-- Witness for C6: the later-loaded `.txt` config wins the shared key in the
built extension map. -/
theorem claim_extension_map_last_write_wins_witness :
    mapGet (buildMaps ([txtConfigA] ++ [txtConfigB])).1 (normalizeExt ".txt") =
      some txtConfigB :=
  (claim_extension_map_last_write_wins [txtConfigA] txtConfigB rfl ".txt"
    (by decide)).1

/-- `buildMaps` never creates a languageId-map binding for an identity all of
whose configs are disabled. -/
theorem mapGet_buildMapsFrom_lid_none (cfgs : List LSPServerConfig)
    (acc : List (String × LSPServerConfig) × List (String × LSPServerConfig))
    (id : String) (hacc : mapGet acc.2 id = none)
    (hall : ∀ c ∈ cfgs, c.languageId = id → isDisabled c = true) :
    mapGet (buildMapsFrom acc cfgs).2 id = none := by
  induction cfgs generalizing acc with
  | nil => exact hacc
  | cons c rest ih =>
    show mapGet (buildMapsFrom (buildMapsStep acc c) rest).2 id = none
    apply ih
    · unfold buildMapsStep
      by_cases hd : isDisabled c
      · simp only [hd, if_true]
        exact hacc
      · have hne : c.languageId ≠ id := by
          intro hid
          exact hd (hall c (List.mem_cons_self c rest) hid)
        simp only [hd]
        simp only [Bool.false_eq_true, if_false]
        rw [mapGet_set_ne acc.2 c.languageId id c (Ne.symm hne)]
        exact hacc
    · intro c' hc' hid
      exact hall c' (List.mem_cons_of_mem c hc') hid

/-- C10: for a languageId whose loaded configs are all disabled, the rebuilt
languageId map holds no binding, so `getConfigByLanguageId` returns
undefined and `restartClient` stops the existing client and starts nothing —
it degrades to a stop. -/
theorem claim_restart_disabled_degrades_to_stop (cs : ConfigState)
    (s : ManagerState) (languageId : String) (freshClient : LanguageClient)
    (hinv : cs.languageIdMap = (buildMaps cs.configs).2)
    (hdis : ∀ c ∈ cs.configs, c.languageId = languageId → isDisabled c = true) :
    getConfigByLanguageId cs languageId = none
    ∧ restartClient cs s languageId freshClient = stopClient s languageId := by
  have hnone : getConfigByLanguageId cs languageId = none := by
    unfold getConfigByLanguageId
    rw [hinv]
    exact mapGet_buildMapsFrom_lid_none cs.configs ([], []) languageId rfl hdis
  refine ⟨hnone, ?_⟩
  unfold restartClient
  rw [hnone]

/-- `javaConfig` after `markConfigAsDisabled`. -/
def disabledJavaConfig : LSPServerConfig :=
  { javaConfig with disabled := some true }

/-- Resolver state in which the only `java` config is disabled (maps rebuilt
accordingly). -/
def disabledJavaState : ConfigState :=
  { configs := [disabledJavaConfig]
    fileExtensionMap := (buildMaps [disabledJavaConfig]).1
    languageIdMap := (buildMaps [disabledJavaConfig]).2
    workspaceStateDisabled := ["java"] }

/-- A supervisor state with a running `java` client. -/
def runningJavaState : ManagerState :=
  { clients :=
      [("java",
        { client := exampleClient
          config := javaConfig
          status := ClientStatus.running
          documentCount := 2 })]
    documentTracking := [("java", ["file:///ws/proj-a/src/Main.java"])] }

/-- Witness for C10: restarting the disabled `java` identity equals stopping
it. -/
theorem claim_restart_disabled_degrades_to_stop_witness :
    getConfigByLanguageId disabledJavaState "java" = none
    ∧ restartClient disabledJavaState runningJavaState "java" exampleClient =
        stopClient runningJavaState "java" :=
  claim_restart_disabled_degrades_to_stop disabledJavaState runningJavaState
    "java" exampleClient rfl (by decide)

/-- A config whose command does not exist: `client.start()` always rejects. -/
def badCommandConfig : LSPServerConfig :=
  { languageId := "gdscript"
    command := "nonexistent-lsp"
    fileExtensions := [".gd"] }

/-- The initial failed launch in the auto-restart revision: `startClient` runs
and its `start()` rejects, so the catch path schedules the first restart. -/
def initialFailedStart : ManagerStateV2 :=
  startClientFinishFailureV2
    (startClientBeginV2 emptyManagerStateV2 badCommandConfig exampleClient)
    "gdscript" "spawn nonexistent-lsp ENOENT"

/-- One full failed automatic restart attempt: the pending timer fires
(incrementing the current record's `restartCount`), `startClient` re-runs —
inserting a fresh record with `restartCount = 0` — and its `start()` rejects
again, scheduling the next restart from the catch path. -/
def failedRestartCycle (s : ManagerStateV2) : ManagerStateV2 :=
  startClientFinishFailureV2
    (startClientBeginV2 (timerCallbackTickV2 s "gdscript") badCommandConfig
      exampleClient)
    "gdscript" "spawn nonexistent-lsp ENOENT"

/-- The state after the initial failure and four consecutive failed automatic
restart attempts. -/
def fourFailedRestartCycles : ManagerStateV2 :=
  failedRestartCycle (failedRestartCycle (failedRestartCycle
    (failedRestartCycle initialFailedStart)))

/-- C4: the bounded-restart cap is defeated by the code.  Every `startClient`
invocation inserts a record with `restartCount = 0`, so the counter the
timer callback incremented is discarded before the `restartCount >= 3` guard
in `scheduleRestart` can ever see a value above 0: after an initial launch
failure and four consecutive failed automatic restarts, a restart timer has
been set five times, a fifth restart is still pending, the
"Max restart attempts reached" branch has never been taken, and the record's
`restartCount` is back to 0.  The supervisor therefore does schedule a
fourth (and fifth, …) consecutive automatic restart, contradicting the
capped policy that the guard and its log message were written for. -/
theorem claim_restart_cap_defeated :
    fourFailedRestartCycles.timersScheduledTotal = 5
    ∧ fourFailedRestartCycles.maxRestartLogs = 0
    ∧ mapGet fourFailedRestartCycles.restartTimers "gdscript" = some 4
    ∧ (mapGet fourFailedRestartCycles.clients "gdscript").map
        (fun i => i.restartCount) = some 0 :=
  ⟨rfl, rfl, rfl, rfl⟩

/-- A single launch failure in the auto-restart revision followed by the
client's `stopped` state-change event (the 1 → 3 transition emitted by the
failed client). -/
def doubleScheduledFailure : ManagerStateV2 :=
  handleClientStateChangeV2 initialFailedStart "gdscript" 3

/-- Counterexample to C8 as stated: after a single launch failure whose
client then reports `stopped`, `scheduleRestart` has been invoked once from
the catch path of `startClient` *and* once from the state-change path — the
two paths both schedule, not exactly one of them. -/
theorem claim_single_schedule_path_counterexample :
    doubleScheduledFailure.schedFromCatch = 1
    ∧ doubleScheduledFailure.schedFromStateChange = 1 :=
  ⟨rfl, rfl⟩

/-- C8 amended: a single launch failure makes both the catch path and the
`stopped` state-change path invoke `scheduleRestart`, but because
`scheduleRestart` cancels any pending timer for the identity before setting a
new one, the failure still leaves exactly one pending restart timer (the one
set second, by the state-change path). -/
theorem claim_single_schedule_path_amended (config : LSPServerConfig)
    (client : LanguageClient) (err : String) :
    (handleClientStateChangeV2
      (startClientFinishFailureV2
        (startClientBeginV2 emptyManagerStateV2 config client)
        config.languageId err)
      config.languageId 3).schedFromCatch = 1
    ∧ (handleClientStateChangeV2
        (startClientFinishFailureV2
          (startClientBeginV2 emptyManagerStateV2 config client)
          config.languageId err)
        config.languageId 3).schedFromStateChange = 1
    ∧ (handleClientStateChangeV2
        (startClientFinishFailureV2
          (startClientBeginV2 emptyManagerStateV2 config client)
          config.languageId err)
        config.languageId 3).restartTimers = [(config.languageId, 1)] := by
  refine ⟨?_, ?_, ?_⟩ <;>
    simp [handleClientStateChangeV2, startClientFinishFailureV2,
      startClientBeginV2, emptyManagerStateV2, scheduleRestartV2,
      cancelRestartV2, timerCallbackTickV2, mapGet, mapSet, mapUpdate,
      mapDelete, List.filter]

/-- Witness for the amended C8 at a concrete config and client. -/
theorem claim_single_schedule_path_amended_witness :
    (handleClientStateChangeV2
      (startClientFinishFailureV2
        (startClientBeginV2 emptyManagerStateV2 badCommandConfig exampleClient)
        badCommandConfig.languageId "spawn nonexistent-lsp ENOENT")
      badCommandConfig.languageId 3).schedFromCatch = 1
    ∧ (handleClientStateChangeV2
        (startClientFinishFailureV2
          (startClientBeginV2 emptyManagerStateV2 badCommandConfig exampleClient)
          badCommandConfig.languageId "spawn nonexistent-lsp ENOENT")
        badCommandConfig.languageId 3).schedFromStateChange = 1
    ∧ (handleClientStateChangeV2
        (startClientFinishFailureV2
          (startClientBeginV2 emptyManagerStateV2 badCommandConfig exampleClient)
          badCommandConfig.languageId "spawn nonexistent-lsp ENOENT")
        badCommandConfig.languageId 3).restartTimers =
        [(badCommandConfig.languageId, 1)] :=
  claim_single_schedule_path_amended badCommandConfig exampleClient
    "spawn nonexistent-lsp ENOENT"

/-! ### Lemmas about `buildMaps` and the disable/enable operations (C7) -/

/-- Every binding produced by the extension-insert loop for one config either
is that config or was already present. -/
theorem mapGet_extFold_cases (exts : List String) (c0 : LSPServerConfig)
    (m : List (String × LSPServerConfig)) (k : String) (c : LSPServerConfig)
    (h : mapGet (exts.foldl (fun m ext => mapSet m (normalizeExt ext) c0) m) k
        = some c) :
    c = c0 ∨ mapGet m k = some c := by
  induction exts generalizing m with
  | nil => exact Or.inr h
  | cons e rest ih =>
    simp only [List.foldl_cons] at h
    rcases ih (mapSet m (normalizeExt e) c0) h with h1 | h2
    · exact Or.inl h1
    · exact mapGet_set_cases m (normalizeExt e) k c0 c h2

/-- The extension-insert loop preserves key presence. -/
theorem isSome_mapGet_extFold (exts : List String) (c0 : LSPServerConfig)
    (m : List (String × LSPServerConfig)) (k : String)
    (h : (mapGet m k).isSome = true) :
    (mapGet (exts.foldl (fun m ext => mapSet m (normalizeExt ext) c0) m) k).isSome
      = true := by
  induction exts generalizing m with
  | nil => exact h
  | cons e rest ih =>
    simp only [List.foldl_cons]
    exact ih (mapSet m (normalizeExt e) c0)
      (isSome_mapGet_set m (normalizeExt e) k c0 h)

/-- Soundness of `buildMaps`: every value stored in either lookup map is
either inherited from the accumulator or an enabled member of the folded
config list. -/
theorem buildMapsFrom_sound (cfgs : List LSPServerConfig)
    (acc : List (String × LSPServerConfig) × List (String × LSPServerConfig))
    (k : String) (c : LSPServerConfig) :
    (mapGet (buildMapsFrom acc cfgs).2 k = some c →
       mapGet acc.2 k = some c ∨ (c ∈ cfgs ∧ isDisabled c = false))
    ∧ (mapGet (buildMapsFrom acc cfgs).1 k = some c →
       mapGet acc.1 k = some c ∨ (c ∈ cfgs ∧ isDisabled c = false)) := by
  induction cfgs generalizing acc with
  | nil => exact ⟨fun h => Or.inl h, fun h => Or.inl h⟩
  | cons c0 rest ih =>
    constructor
    · intro h
      rcases (ih (buildMapsStep acc c0)).1 h with h2 | h2
      · unfold buildMapsStep at h2
        by_cases hd : isDisabled c0 = true
        · rw [if_pos hd] at h2
          exact Or.inl h2
        · rw [if_neg hd] at h2
          have hdf : isDisabled c0 = false := by
            revert hd; cases isDisabled c0 <;> simp
          rcases mapGet_set_cases acc.2 c0.languageId k c0 c h2 with rfl | h3
          · exact Or.inr ⟨List.mem_cons_self c rest, hdf⟩
          · exact Or.inl h3
      · exact Or.inr ⟨List.mem_cons_of_mem c0 h2.1, h2.2⟩
    · intro h
      rcases (ih (buildMapsStep acc c0)).2 h with h2 | h2
      · unfold buildMapsStep at h2
        by_cases hd : isDisabled c0 = true
        · rw [if_pos hd] at h2
          exact Or.inl h2
        · rw [if_neg hd] at h2
          have hdf : isDisabled c0 = false := by
            revert hd; cases isDisabled c0 <;> simp
          rcases mapGet_extFold_cases c0.fileExtensions c0 acc.1 k c h2 with rfl | h3
          · exact Or.inr ⟨List.mem_cons_self c rest, hdf⟩
          · exact Or.inl h3
      · exact Or.inr ⟨List.mem_cons_of_mem c0 h2.1, h2.2⟩

/-- `buildMaps` preserves key presence of the accumulator. -/
theorem buildMapsFrom_isSome_mono (cfgs : List LSPServerConfig)
    (acc : List (String × LSPServerConfig) × List (String × LSPServerConfig))
    (k : String) :
    ((mapGet acc.2 k).isSome = true →
       (mapGet (buildMapsFrom acc cfgs).2 k).isSome = true)
    ∧ ((mapGet acc.1 k).isSome = true →
       (mapGet (buildMapsFrom acc cfgs).1 k).isSome = true) := by
  induction cfgs generalizing acc with
  | nil => exact ⟨fun h => h, fun h => h⟩
  | cons c0 rest ih =>
    constructor <;> intro h
    · apply (ih (buildMapsStep acc c0)).1
      unfold buildMapsStep
      by_cases hd : isDisabled c0 = true
      · rw [if_pos hd]; exact h
      · rw [if_neg hd]
        exact isSome_mapGet_set acc.2 c0.languageId k c0 h
    · apply (ih (buildMapsStep acc c0)).2
      unfold buildMapsStep
      by_cases hd : isDisabled c0 = true
      · rw [if_pos hd]; exact h
      · rw [if_neg hd]
        exact isSome_mapGet_extFold c0.fileExtensions c0 acc.1 k h

/-- Completeness of `buildMaps`: every enabled config of the folded list is
present under its languageId key and under each of its normalized extension
keys. -/
theorem buildMapsFrom_complete (cfgs : List LSPServerConfig)
    (c : LSPServerConfig) (hd : isDisabled c = false) :
    ∀ acc, c ∈ cfgs →
      ((mapGet (buildMapsFrom acc cfgs).2 c.languageId).isSome = true)
      ∧ (∀ e, e ∈ c.fileExtensions →
          (mapGet (buildMapsFrom acc cfgs).1 (normalizeExt e)).isSome = true) := by
  induction cfgs with
  | nil => intro acc hc; exact absurd hc (List.not_mem_nil c)
  | cons c0 rest ih =>
    intro acc hc
    rcases List.mem_cons.mp hc with rfl | hmem
    · have hcond : ¬(isDisabled c = true) := by simp [hd]
      constructor
      · apply (buildMapsFrom_isSome_mono rest (buildMapsStep acc c) c.languageId).1
        unfold buildMapsStep
        rw [if_neg hcond]
        dsimp only
        rw [mapGet_set_self]
        rfl
      · intro e he
        apply (buildMapsFrom_isSome_mono rest (buildMapsStep acc c)
          (normalizeExt e)).2
        unfold buildMapsStep
        rw [if_neg hcond]
        dsimp only
        rw [mapGet_extFold c.fileExtensions c acc.1 (normalizeExt e)
          (Or.inr ⟨e, he, rfl⟩)]
        rfl
    · exact ih (buildMapsStep acc c0) hmem

/-- The resolver map invariant: both lookup maps equal the rebuild from the
current config list (true after every load and after every
disable/enable). -/
def mapsConsistent (s : ConfigState) : Prop :=
  s.fileExtensionMap = (buildMaps s.configs).1
  ∧ s.languageIdMap = (buildMaps s.configs).2

/-- Both lookup maps only ever hand out enabled members of the config
list. -/
def lookupSound (s : ConfigState) : Prop :=
  (∀ k c, mapGet s.languageIdMap k = some c →
     c ∈ s.configs ∧ isDisabled c = false)
  ∧ (∀ k c, mapGet s.fileExtensionMap k = some c →
     c ∈ s.configs ∧ isDisabled c = false)

/-- Every enabled config is reachable in both lookup maps. -/
def lookupComplete (s : ConfigState) : Prop :=
  (∀ c, c ∈ s.configs → isDisabled c = false →
     (mapGet s.languageIdMap c.languageId).isSome = true)
  ∧ (∀ c, c ∈ s.configs → isDisabled c = false →
     ∀ e, e ∈ c.fileExtensions →
       (mapGet s.fileExtensionMap (normalizeExt e)).isSome = true)

theorem mapsConsistent_lookupSound (s : ConfigState) (h : mapsConsistent s) :
    lookupSound s := by
  obtain ⟨h1, h2⟩ := h
  constructor
  · intro k c hk
    rw [h2] at hk
    rcases (buildMapsFrom_sound s.configs ([], []) k c).1 hk with h3 | h3
    · simp [mapGet] at h3
    · exact h3
  · intro k c hk
    rw [h1] at hk
    rcases (buildMapsFrom_sound s.configs ([], []) k c).2 hk with h3 | h3
    · simp [mapGet] at h3
    · exact h3

theorem mapsConsistent_lookupComplete (s : ConfigState) (h : mapsConsistent s) :
    lookupComplete s := by
  obtain ⟨h1, h2⟩ := h
  constructor
  · intro c hc hd
    rw [h2]
    exact (buildMapsFrom_complete s.configs c hd ([], []) hc).1
  · intro c hc hd e he
    rw [h1]
    exact (buildMapsFrom_complete s.configs c hd ([], []) hc).2 e he

theorem applyConfigOp_consistent (s : ConfigState) (op : ConfigOp)
    (h : mapsConsistent s) : mapsConsistent (applyConfigOp s op) := by
  cases op with
  | disable id =>
    cases hf : s.configs.find? (fun c => c.languageId == id) with
    | none =>
      simp only [applyConfigOp, markConfigAsDisabled, hf]
      exact h
    | some c =>
      simp only [applyConfigOp, markConfigAsDisabled, hf]
      exact ⟨rfl, rfl⟩
  | enable id =>
    cases hf : s.configs.find? (fun c => c.languageId == id) with
    | none =>
      simp only [applyConfigOp, enableConfig, hf]
      exact h
    | some c =>
      simp only [applyConfigOp, enableConfig, hf]
      exact ⟨rfl, rfl⟩

theorem applyConfigOps_consistent (s : ConfigState) (ops : List ConfigOp)
    (h : mapsConsistent s) : mapsConsistent (applyConfigOps s ops) := by
  induction ops generalizing s with
  | nil => exact h
  | cons op rest ih =>
    exact ih (applyConfigOp s op) (applyConfigOp_consistent s op h)

/-- Flipping the flag of the first matching config twice equals flipping it
once. -/
theorem setDisabledFirst_idem (l : List LSPServerConfig) (id : String)
    (b : Option Bool) :
    setDisabledFirst (setDisabledFirst l id b) id b = setDisabledFirst l id b := by
  induction l with
  | nil => rfl
  | cons c cs ih =>
    by_cases h : c.languageId = id
    · simp [setDisabledFirst, h]
    · have hb : (c.languageId == id) = false := beq_eq_false_iff_ne.mpr h
      simp [setDisabledFirst, hb, ih]

/-- If `find` located a config for the languageId, it still locates it (with
the flipped flag) after `setDisabledFirst`. -/
theorem find_setDisabledFirst_eq (l : List LSPServerConfig) (id : String)
    (b : Option Bool) (c : LSPServerConfig)
    (h : l.find? (fun x => x.languageId == id) = some c) :
    (setDisabledFirst l id b).find? (fun x => x.languageId == id) =
      some { c with disabled := b } := by
  induction l with
  | nil => cases h
  | cons x xs ih =>
    by_cases hx : x.languageId = id
    · have hbx : (x.languageId == id) = true := by simp [hx]
      simp only [List.find?, hbx] at h
      obtain rfl : x = c := Option.some.inj h
      simp [setDisabledFirst, hbx, List.find?]
    · have hbx : (x.languageId == id) = false := beq_eq_false_iff_ne.mpr hx
      simp only [List.find?, hbx] at h
      simp [setDisabledFirst, hbx, List.find?, ih h]

/-- Appending an element makes `includes` true. -/
theorem contains_append_self (l : List String) (x : String) :
    (l ++ [x]).contains x = true := by
  induction l with
  | nil => simp [List.contains, List.elem]
  | cons y ys ih =>
    by_cases h : x = y
    · simp [List.contains, List.elem, h]
    · have hb : (x == y) = false := beq_eq_false_iff_ne.mpr h
      simp [List.contains, List.elem, hb, ih]

/-- `indexOf`/`splice` removal is a no-op for an absent element. -/
theorem eraseFirst_of_not_mem (l : List String) (id : String) (h : id ∉ l) :
    eraseFirst l id = l := by
  induction l with
  | nil => rfl
  | cons x xs ih =>
    have hx : (x == id) = false := by
      apply beq_eq_false_iff_ne.mpr
      intro he
      have : id ∈ x :: xs := by
        rw [he] at *
        exact List.mem_cons_self id xs
      exact h this
    simp [eraseFirst, hx, ih (fun hm => h (List.mem_cons_of_mem x hm))]

/-- On a duplicate-free list, removing the first occurrence removes the
element entirely. -/
theorem not_mem_eraseFirst (l : List String) (id : String) (hnd : l.Nodup) :
    id ∉ eraseFirst l id := by
  induction l with
  | nil => simp [eraseFirst]
  | cons x xs ih =>
    rcases List.nodup_cons.mp hnd with ⟨hx, hxs⟩
    by_cases hxe : x = id
    · subst hxe
      simpa [eraseFirst] using hx
    · have hb : (x == id) = false := beq_eq_false_iff_ne.mpr hxe
      simp only [eraseFirst, hb]
      intro hmem
      rcases List.mem_cons.mp (by simpa using hmem) with he | hm
      · exact hxe he.symm
      · exact ih hxs hm

/-- `markConfigAsDisabled` is idempotent. -/
theorem markConfigAsDisabled_idem (s : ConfigState) (id : String) :
    markConfigAsDisabled (markConfigAsDisabled s id) id =
      markConfigAsDisabled s id := by
  cases hf : s.configs.find? (fun c => c.languageId == id) with
  | none =>
    simp only [markConfigAsDisabled, hf]
  | some c =>
    have hf2 := find_setDisabledFirst_eq s.configs id (some true) c hf
    by_cases hc : s.workspaceStateDisabled.contains id = true
    · simp only [markConfigAsDisabled, hf, hc, if_true, hf2,
        setDisabledFirst_idem]
    · have hcf : s.workspaceStateDisabled.contains id = false := by
        revert hc; cases s.workspaceStateDisabled.contains id <;> simp
      simp only [markConfigAsDisabled, hf, hcf, Bool.false_eq_true, if_false,
        hf2, setDisabledFirst_idem, contains_append_self, if_true]

/-- `enableConfig` is idempotent when the persisted disabled list is
duplicate-free (which `markConfigAsDisabled` maintains). -/
theorem enableConfig_idem (s : ConfigState) (id : String)
    (hnd : s.workspaceStateDisabled.Nodup) :
    enableConfig (enableConfig s id) id = enableConfig s id := by
  cases hf : s.configs.find? (fun c => c.languageId == id) with
  | none =>
    simp only [enableConfig, hf]
  | some c =>
    have hf2 := find_setDisabledFirst_eq s.configs id (some false) c hf
    have hws : eraseFirst (eraseFirst s.workspaceStateDisabled id) id =
        eraseFirst s.workspaceStateDisabled id :=
      eraseFirst_of_not_mem _ id (not_mem_eraseFirst _ id hnd)
    simp only [enableConfig, hf, hf2, setDisabledFirst_idem, hws]

/-- C7: starting from a consistent resolver state, after any sequence of
`markConfigAsDisabled`/`enableConfig` calls the lookup maps stay the rebuild
of the config list, hold only enabled configs, and hold every enabled config
under its languageId and normalized-extension keys; moreover both operations
are idempotent. -/
theorem claim_disable_enable_maps (s : ConfigState) (ops : List ConfigOp)
    (id : String) (hinv : mapsConsistent s)
    (hnd : s.workspaceStateDisabled.Nodup) :
    mapsConsistent (applyConfigOps s ops)
    ∧ lookupSound (applyConfigOps s ops)
    ∧ lookupComplete (applyConfigOps s ops)
    ∧ markConfigAsDisabled (markConfigAsDisabled s id) id =
        markConfigAsDisabled s id
    ∧ enableConfig (enableConfig s id) id = enableConfig s id := by
  have hops := applyConfigOps_consistent s ops hinv
  exact ⟨hops, mapsConsistent_lookupSound _ hops,
    mapsConsistent_lookupComplete _ hops,
    markConfigAsDisabled_idem s id, enableConfig_idem s id hnd⟩

/-- Witness for C7: disable, disable again, then enable on the loaded
two-config `.txt` state keeps the maps consistent, and both operations are
idempotent there. -/
theorem claim_disable_enable_maps_witness :
    mapsConsistent (applyConfigOps txtState
      [ConfigOp.disable "alang", ConfigOp.disable "alang", ConfigOp.enable "alang"])
    ∧ markConfigAsDisabled (markConfigAsDisabled txtState "alang") "alang" =
        markConfigAsDisabled txtState "alang"
    ∧ enableConfig (enableConfig txtState "alang") "alang" =
        enableConfig txtState "alang" :=
  have h := claim_disable_enable_maps txtState
    [ConfigOp.disable "alang", ConfigOp.disable "alang", ConfigOp.enable "alang"]
    "alang" ⟨rfl, rfl⟩ List.nodup_nil
  ⟨h.1, h.2.2.2.1, h.2.2.2.2⟩

end LspProxy
